import Mathlib

/- Shallow embedding of the tic-tac-toe coordination core of the repository:
the board helpers and win detection of src/tic_tac_toe/core_functions.py, the
coordinator state machine of src/tic_tac_toe/tic_tac_toe_human.py, and the
pygame UI handoff state of src/game_console/pygame_ui.py.

Cells are chars as in the source: a period stands for the empty cell, the
marks in play are the chars O (first, automated mover) and X (second, human
mover).  A board is a total function from a pair of cell indices to the char
stored there; only indices below 3 are ever read or written by the embedded
code, exactly as in the source where the 3x3 list of lists is only indexed
after a range check. -/

namespace TicTacToe

def Board : Type := Nat → Nat → Char

def emptyBoard : Board := fun _ _ => '.'

/- Models the in-place assignment board[i][j] = mark performed by the
coordinator and by the UI click handler. -/
def writeCell (b : Board) (r c : Nat) (m : Char) : Board :=
  fun x y => if x = r ∧ y = c then m else b x y

/- valid_move from core_functions.py:
0 <= i < 3 and 0 <= j < 3 and board[i][j] == '.'
The Python conjunction short-circuits, so the cell is only read in range;
here the board is total, which yields the same boolean value. -/
def valid_move (b : Board) (i j : Int) : Bool :=
  decide (0 ≤ i) && decide (i < 3) && decide (0 ≤ j) && decide (j < 3) &&
    (b i.toNat j.toNat == '.')

/- The three possible outcomes of check_winner: the Python function returns
the winning mark (a char), the string DRAW, or Python None. -/
inductive WinResult where
  | win (m : Char)
  | draw
  | ongoing
deriving DecidableEq

/- One chained comparison b[x1][y1] == b[x2][y2] == b[x3][y3] != '.' from
check_winner in core_functions.py. -/
def lineHit (b : Board) (r1 c1 r2 c2 r3 c3 : Nat) : Bool :=
  (b r1 c1 == b r2 c2) && (b r2 c2 == b r3 c3) && !(b r3 c3 == '.')

/- all(cell != '.' for row in b for cell in row) from check_winner. -/
def boardFull (b : Board) : Bool :=
  (List.range 3).all fun r => (List.range 3).all fun c => !(b r c == '.')

/- check_winner from core_functions.py with its two index loops unrolled:
rows 0..2, then columns 0..2, then the main diagonal, then the anti-diagonal,
first hit returned; then the draw test; otherwise None. -/
def check_winner (b : Board) : WinResult :=
  if lineHit b 0 0 0 1 0 2 then WinResult.win (b 0 0)
  else if lineHit b 1 0 1 1 1 2 then WinResult.win (b 1 0)
  else if lineHit b 2 0 2 1 2 2 then WinResult.win (b 2 0)
  else if lineHit b 0 0 1 0 2 0 then WinResult.win (b 0 0)
  else if lineHit b 0 1 1 1 2 1 then WinResult.win (b 0 1)
  else if lineHit b 0 2 1 2 2 2 then WinResult.win (b 0 2)
  else if lineHit b 0 0 1 1 2 2 then WinResult.win (b 0 0)
  else if lineHit b 0 2 1 1 2 0 then WinResult.win (b 0 2)
  else if boardFull b then WinResult.draw
  else WinResult.ongoing

/- The codepoints the whitespace class \s of a Python str pattern matches
(CPython matches a char iff Py_UNICODE_ISSPACE holds): the ASCII whitespace
chars 9-13 and 28-32, next line 133, no-break space 160, and the unicode
space separators and line/paragraph separators. -/
def pySpaceCodes : List Nat :=
  [9, 10, 11, 12, 13, 28, 29, 30, 31, 32, 133, 160, 5760,
   8192, 8193, 8194, 8195, 8196, 8197, 8198, 8199, 8200, 8201, 8202,
   8232, 8233, 8239, 8287, 12288]

def natIsPySpace (n : Nat) : Bool := pySpaceCodes.contains n

/- The whitespace class \s of the regular expression in parse_coord. -/
def isPySpace (c : Char) : Bool := natIsPySpace c.toNat

/- The decimal-digit class \d of a Python str pattern matches exactly the
unicode decimal digits (category Nd).  These come in aligned runs of ten
consecutive codepoints, digit zero first, and int() maps each digit char to
its offset in its run; this list holds the first codepoint of every run. -/
def pyDigitStarts : List Nat :=
  [48, 1632, 1776, 1984, 2406, 2534, 2662, 2790, 2918, 3046, 3174, 3302,
   3430, 3558, 3664, 3792, 3872, 4160, 4240, 6112, 6160, 6470, 6608, 6784,
   6800, 6992, 7088, 7232, 7248, 42528, 43216, 43264, 43472, 43504, 43600,
   44016, 65296, 66720, 68912, 69734, 69872, 69942, 70096, 70384, 70736,
   70864, 71248, 71360, 71472, 71904, 72016, 72784, 73040, 73120, 92768,
   92864, 93008, 120782, 120792, 120802, 120812, 120822, 123200, 123632,
   125264, 130032]

def natIsPyDigit (n : Nat) : Bool :=
  pyDigitStarts.any fun s => decide (s ≤ n) && decide (n < s + 10)

/- The decimal-digit class \d of the regular expression in parse_coord. -/
def isPyDigit (c : Char) : Bool := natIsPyDigit c.toNat

/- Value of one digit char, as computed by Python int(): its offset in its
run of the unicode decimal digits. -/
def digitVal (c : Char) : Nat :=
  match pyDigitStarts.find? (fun s => decide (s ≤ c.toNat) && decide (c.toNat < s + 10)) with
  | some s => c.toNat - s
  | none => 0

/- Value of a run of decimal digit chars, as computed by Python int(). -/
def natVal (ds : List Char) : Nat := ds.foldl (fun a c => a * 10 + digitVal c) 0

/- Matching of the regex fragment -?\d+ at the head of the input: an optional
minus sign followed by a greedy, maximal run of digits.  Returns the signed
value and the unconsumed rest.  Shortening the greedy run can never make the
surrounding pattern of parse_coord succeed (whatever follows the digits must
be a whitespace, a comma or the end of the group), so the greedy run needs no
backtracking and this deterministic function is faithful. -/
def parseIntAt : List Char → Option (Int × List Char)
  | [] => none
  | c :: rest =>
    if c = '-' then
      if (rest.takeWhile isPyDigit).isEmpty then none
      else some (-(natVal (rest.takeWhile isPyDigit) : Int), rest.dropWhile isPyDigit)
    else
      if ((c :: rest).takeWhile isPyDigit).isEmpty then none
      else some ((natVal ((c :: rest).takeWhile isPyDigit) : Int),
                 (c :: rest).dropWhile isPyDigit)

/- Matching of the regex fragment \s*[, ]\s*(-?\d+) after the first group.
The greedy \s* first consumes the whole whitespace run; the class [, ] then
has to match the first non-whitespace char, which can only succeed when that
char is a comma (a space would still belong to the whitespace run).  On
failure the engine backtracks the run one char at a time, which succeeds
exactly when the run contains a space; the trailing \s* then swallows the
remainder of the run, so the second group always starts at the first
non-whitespace char.  This function is the resulting deterministic form. -/
def sepSecond (cs : List Char) : Option Int :=
  match cs.dropWhile isPySpace with
  | c :: t2 =>
    if c = ',' then (parseIntAt (t2.dropWhile isPySpace)).map Prod.fst
    else if (cs.takeWhile isPySpace).contains ' ' then
      (parseIntAt (c :: t2)).map Prod.fst
    else none
  | [] => none

/- One attempt of the full pattern (-?\d+)\s*[, ]\s*(-?\d+) anchored at the
current position. -/
def matchAt (cs : List Char) : Option (Int × Int) :=
  match parseIntAt cs with
  | some (i, rest) =>
    match sepSecond rest with
    | some j => some (i, j)
    | none => none
  | none => none

/- re.search semantics: try every start position from the left, first
successful anchor wins. -/
def searchPairs : List Char → Option (Int × Int)
  | [] => none
  | c :: cs =>
    match matchAt (c :: cs) with
    | some p => some p
    | none => searchPairs cs

/- parse_coord from core_functions.py. -/
def parse_coord (s : String) : Option (Int × Int) := searchPairs s.data

/- The langgraph State dataclass of tic_tac_toe_human.py.  moves, game_status
and last_player default to Python None; the board defaults to the empty 3x3
grid; the counters default to 0. -/
structure GameState where
  moves : Option (Int × Int) := none
  game_status : Option String := none
  board : Board := emptyBoard
  last_player : Option Char := none
  player_one_token : Nat := 0
  player_two_token : Nat := 0
  invalid_move_count : Nat := 0

def initState : GameState := {}

/- The graph nodes named by the goto field of the Commands returned by the
node functions; endNode stands for langgraph END. -/
inductive Node where
  | player_one_node
  | player_two_node
  | coordinator_node
  | endNode
deriving DecidableEq

/- The module global player_two_model of tic_tac_toe_human.py. -/
def player_two_model : String := "human"

/- winner = player_two_model if result == 'X' else player_one_model_name;
the selected model name is passed in as p1 since it is a per-session global. -/
def winner_name (p1 : String) (m : Char) : String :=
  if m = 'X' then player_two_model else p1

/- The f-string of the abort branch of coordinator_node. -/
def invalid_limit_msg (i j : Int) (symbol : Char) : String :=
  s!"Invalid move ({i}, {j}) by {symbol} after 3 attempts"

/- setCell models state.board[i][j] = symbol; the coordinator only executes
it after valid_move, hence with both indices in range. -/
def setCell (b : Board) (i j : Int) (m : Char) : Board :=
  writeCell b i.toNat j.toNat m

/- coordinator_node of tic_tac_toe_human.py as a pure transition: it returns
the new State contents (the langgraph Command update merged into the incoming
state, plus the in-place board mutation) together with the goto target.  The
result is Option because Python would raise when unpacking state.moves while
it is still None with a last player set, a situation the graph never creates.
Branches follow the source: on an invalid move the counter is bumped and the
same player retried, or the session is ended with the invalid-limit status
after the third consecutive failure; on a valid move the board is mutated,
the winner checked (DRAW, then a mark of X or O, any other result falls
through), and otherwise the turn passes with the counter reset to 0. -/
def coordinator_step (p1 : String) (s : GameState) : Option (GameState × Node) :=
  match s.last_player with
  | none => some ({ s with invalid_move_count := 0 }, Node.player_one_node)
  | some symbol =>
    match s.moves with
    | none => none
    | some (i, j) =>
      if valid_move s.board i j then
        match check_winner (setCell s.board i j symbol) with
        | WinResult.draw =>
          some ({ s with board := setCell s.board i j symbol,
                         game_status := some "DRAW." }, Node.endNode)
        | WinResult.win 'X' =>
          some ({ s with board := setCell s.board i j symbol,
                         game_status := some ("WINNER " ++ winner_name p1 'X') },
                Node.endNode)
        | WinResult.win 'O' =>
          some ({ s with board := setCell s.board i j symbol,
                         game_status := some ("WINNER " ++ winner_name p1 'O') },
                Node.endNode)
        | _ =>
          some ({ s with board := setCell s.board i j symbol,
                         invalid_move_count := 0 },
                if symbol = 'O' then Node.player_two_node else Node.player_one_node)
      else
        if 3 ≤ s.invalid_move_count + 1 then
          some ({ s with game_status := some (invalid_limit_msg i j symbol) },
                Node.endNode)
        else
          some ({ s with invalid_move_count := s.invalid_move_count + 1 },
                if symbol = 'O' then Node.player_one_node else Node.player_two_node)

/- The player_one_node closure of run_single_game: it builds a prompt, calls
the adapter and parses the reply.  The adapter reply content is the resp
argument, its token usage the tok argument.  An unparsable reply raises
ValueError, modeled by the error branch; otherwise the Command routes the
parsed coordinate to the coordinator. -/
def player_one_step (resp : String) (tok : Nat) (s : GameState) :
    Except String (GameState × Node) :=
  match parse_coord resp with
  | none => Except.error ("unparsable move: " ++ resp)
  | some coord =>
    Except.ok ({ s with last_player := some 'O',
                        moves := some coord,
                        player_one_token := s.player_one_token + tok },
               Node.coordinator_node)

/- The cross-thread state of PygameGame in pygame_ui.py, restricted to the
fields the coordination protocol reads or writes: the displayed board, the
game-over flag and status string, the human-move gate (human_turn flag,
pending move slot, move_ready event), the running flag of the event loop, the
shutdown and restart events, and the model-selection enable flag.  Field
defaults follow PygameGame.start and PygameGame.init. -/
structure UIState where
  board : Board := emptyBoard
  current_player : Option Char := none
  game_over : Bool := false
  game_status : String := ""
  human_turn : Bool := false
  move_ready : Bool := false
  human_move : Option (Nat × Nat) := none
  running : Bool := true
  shutdown_event : Bool := false
  restart_event : Bool := false
  model_selection_enabled : Bool := true

def initUI : UIState := {}

/- The first lock-protected section of the board-click branch of
run_event_loop: under self.lock it reads whether the clicked cell is empty
and whether it is the human's turn, then releases the lock. -/
def clickCheck (ui : UIState) (r c : Nat) : Bool × Bool :=
  (ui.board r c == '.', ui.human_turn)

/- The second lock-protected section of the same branch: under a fresh
acquisition of self.lock it records the X mark, stores the pending move and
closes the gate, then sets the move_ready event. -/
def clickRecord (ui : UIState) (r c : Nat) : UIState :=
  { ui with board := writeCell ui.board r c 'X',
            human_move := some (r, c),
            human_turn := false,
            move_ready := true }

/- The complete board-click handling of run_event_loop as executed by the
single UI thread: range check on the computed cell, then the check section,
then, only when both checks passed, the record section. -/
def handleBoardClick (ui : UIState) (row col : Int) : UIState :=
  if 0 ≤ row ∧ row < 3 ∧ 0 ≤ col ∧ col < 3 then
    if (clickCheck ui row.toNat col.toNat).1 && (clickCheck ui row.toNat col.toNat).2 then
      clickRecord ui row.toNat col.toNat
    else ui
  else ui

/- The interleaving that the two-section structure of the click handler
admits when the check and the record are taken as separate critical
sections: both checks run before either record.  A single critical section
covering check and record would make this schedule impossible. -/
def splitLockDoubleClick (ui : UIState) (r1 c1 r2 c2 : Nat) :
    UIState × Bool × Bool :=
  let ck1 := clickCheck ui r1 c1
  let ck2 := clickCheck ui r2 c2
  let ui1 := if ck1.1 && ck1.2 then clickRecord ui r1 c1 else ui
  let ui2 := if ck2.1 && ck2.2 then clickRecord ui1 r2 c2 else ui1
  (ui2, ck1.1 && ck1.2, ck2.1 && ck2.2)

/- The opening section of wait_for_human_move: under self.lock it marks the
gate open, clears the move_ready event and the stale pending move, then
blocks on move_ready.wait(). -/
def wait_begin (ui : UIState) : UIState :=
  { ui with human_turn := true, move_ready := false, human_move := none }

/- The condition the blocked logic thread waits on inside
wait_for_human_move: the move_ready event.  Nothing else wakes it. -/
def await_unblocked (ui : UIState) : Bool := ui.move_ready

/- The pygame.QUIT branch of run_event_loop: running is cleared and the
shutdown event is set. -/
def on_quit (ui : UIState) : UIState :=
  { ui with running := false, shutdown_event := true }

/- The finally block of the main module: continue_running is cleared (a
plain module global, not part of UIState) and the restart event is set so a
logic thread parked between games wakes up. -/
def main_finally_signal (ui : UIState) : UIState :=
  { ui with restart_event := true }

/- update_board of pygame_ui.py: the display copy of the board and the last
player are replaced; when a status string is supplied, the game-over flag is
raised with that status. -/
def update_board (ui : UIState) (b : Board) (last : Option Char)
    (status : Option String) : UIState :=
  match status with
  | none => { ui with board := b, current_player := last }
  | some st => { ui with board := b, current_player := last,
                         game_over := true, game_status := st }

/- reset_game of pygame_ui.py followed by its trailing
set_model_selection_enabled(True) call. -/
def reset_game (ui : UIState) : UIState :=
  { ui with board := emptyBoard,
            current_player := none,
            game_over := false,
            game_status := "",
            human_turn := false,
            human_move := none,
            restart_event := false,
            model_selection_enabled := true }

/- The per-process state around the game thread: the shared UI state, the
continue_running module global, and whether the run_async_in_thread loop is
still alive. -/
structure SystemState where
  ui : UIState := {}
  continue_running : Bool := true
  game_thread_alive : Bool := true

/- The except branch of run_async_in_thread: the exception text is printed
to the console, continue_running is cleared, the shutdown event is set and
the loop breaks.  No call into the UI state other than the shutdown event is
made: in particular update_board is not called, so neither game_over nor
game_status changes. -/
def on_game_exception (sys : SystemState) : SystemState :=
  { sys with continue_running := false,
             game_thread_alive := false,
             ui := { sys.ui with shutdown_event := true } }

/- One adapter turn of the session runner: when the adapter reply parses the
session continues with the player Command; when it does not, the ValueError
propagates out of graph.ainvoke and run_single_game into the except branch
of run_async_in_thread. -/
def run_with_adapter_reply (resp : String) (tok : Nat) (s : GameState)
    (sys : SystemState) : SystemState :=
  match player_one_step resp tok s with
  | Except.error _ => on_game_exception sys
  | Except.ok _ => sys

/- ------------------------------------------------------------------ -/
/- Spec-side definitions, written from the specification text, used to
state the claims against the embedded code. -/

/- The node that solicits the player owning a mark: player_one_node always
submits with last_player O, player_two_node with last_player X. -/
def nodeOf (m : Char) : Node :=
  if m = 'O' then Node.player_one_node else Node.player_two_node

/- The mark played by each graph node, read off the Commands the two player
nodes return. -/
def playsMark : Node → Option Char
  | Node.player_one_node => some 'O'
  | Node.player_two_node => some 'X'
  | _ => none

/- The eight winning lines in the order the specification fixes: rows 0-2,
then columns 0-2, then the main diagonal, then the anti-diagonal. -/
def specLines : List (List (Nat × Nat)) :=
  [[(0, 0), (0, 1), (0, 2)],
   [(1, 0), (1, 1), (1, 2)],
   [(2, 0), (2, 1), (2, 2)],
   [(0, 0), (1, 0), (2, 0)],
   [(0, 1), (1, 1), (2, 1)],
   [(0, 2), (1, 2), (2, 2)],
   [(0, 0), (1, 1), (2, 2)],
   [(0, 2), (1, 1), (2, 0)]]

/- A line holds three identical non-empty marks. -/
def lineComplete (b : Board) : List (Nat × Nat) → Bool
  | [p, q, r] => lineHit b p.1 p.2 q.1 q.2 r.1 r.2
  | _ => false

/- The mark sitting on a line (all three cells agree when the line is
complete). -/
def lineMark (b : Board) : List (Nat × Nat) → Char
  | p :: _ => b p.1 p.2
  | [] => '.'

/- The first complete line in the fixed check order. -/
def firstCompleteLine (b : Board) : Option (List (Nat × Nat)) :=
  specLines.find? (lineComplete b)

/- Declarative predicates describing the text pattern parse_coord looks
for, used to state the claim about it. -/

def allSat (p : Char → Bool) (l : List Char) : Prop := ∀ c ∈ l, p c = true

def headNotSat (p : Char → Bool) : List Char → Prop
  | [] => True
  | c :: _ => p c = false

/- A decimal integer token: an optional minus sign followed by a nonempty
digit run, together with its Python int() value. -/
def IntToken (m : List Char) (v : Int) : Prop :=
  ∃ ds, ds ≠ [] ∧ allSat isPyDigit ds ∧
    ((m = ds ∧ v = (natVal ds : Int)) ∨ (m = '-' :: ds ∧ v = -(natVal ds : Int)))

/- The separator the pattern accepts between the two integers: optional
whitespace, one comma or space, optional whitespace. -/
def SepToken (w1 : List Char) (c : Char) (w2 : List Char) : Prop :=
  allSat isPySpace w1 ∧ (c = ',' ∨ c = ' ') ∧ allSat isPySpace w2

/- An anchored occurrence of the full pattern: first integer, separator,
second integer whose digit run is maximal (the remainder does not continue
it). -/
def MatchDecomp (cs : List Char) (i j : Int) : Prop :=
  ∃ m1 w1 c w2 m2 rest,
    cs = m1 ++ (w1 ++ c :: (w2 ++ (m2 ++ rest))) ∧
    IntToken m1 i ∧ SepToken w1 c w2 ∧ IntToken m2 j ∧
    headNotSat isPyDigit rest

/- An occurrence of the pattern starting at position p of the string. -/
def PairOcc (cs : List Char) (p : Nat) (i j : Int) : Prop :=
  ∃ pre tail, cs = pre ++ tail ∧ pre.length = p ∧ MatchDecomp tail i j

/- The claim's own, wider reading of the separator: two integers separated
by a nonempty run of whitespace and commas (so also by a lone tab). -/
def WSPairOcc (cs : List Char) (i j : Int) : Prop :=
  ∃ pre m1 sep m2 rest,
    cs = pre ++ m1 ++ sep ++ m2 ++ rest ∧
    IntToken m1 i ∧ sep ≠ [] ∧ (∀ c ∈ sep, isPySpace c = true ∨ c = ',') ∧
    IntToken m2 j ∧ headNotSat isPyDigit rest

/- ------------------------------------------------------------------ -/
/- Concrete states used by witnesses and counterexamples. -/

/- A 3x3 board from a literal list of rows. -/
def mkBoard (l : List (List Char)) : Board :=
  fun i j => (l.getD i []).getD j '.'

/- O has marked (0,0) and (0,1) and now legally completes the top row while
two earlier attempts this turn were invalid. -/
def preWinState : GameState :=
  { moves := some (0, 2),
    board := mkBoard [['O', 'O', '.'], ['X', 'X', '.'], ['.', '.', '.']],
    last_player := some 'O',
    invalid_move_count := 2 }

/- Projection used to observe the counter of a coordinator result. -/
def stepCounter (r : Option (GameState × Node)) : Option Nat :=
  r.map fun x => x.1.invalid_move_count

/- The automated player targets the already occupied centre. -/
def retryState : GameState :=
  { moves := some (1, 1),
    board := mkBoard [['.', '.', '.'], ['.', 'O', '.'], ['.', '.', '.']],
    last_player := some 'O',
    invalid_move_count := 0 }

/- The human targets the already occupied centre. -/
def occupiedCenterState : GameState :=
  { moves := some (1, 1),
    board := mkBoard [['.', '.', '.'], ['.', 'O', '.'], ['.', '.', '.']],
    last_player := some 'X',
    invalid_move_count := 0 }

/- The gate is open over an empty board. -/
def openGateUI : UIState := { board := emptyBoard, human_turn := true }

/- The gate is open but cell (0,0) is already taken. -/
def occupiedUI : UIState :=
  { board := mkBoard [['X', '.', '.'], ['.', '.', '.'], ['.', '.', '.']],
    human_turn := true }

/- The logic thread has just entered wait_for_human_move and blocked. -/
def blockedUI : UIState := wait_begin initUI

/- An in-range but out-of-board adapter reply. -/
def oorReplyState : GameState :=
  { board := emptyBoard, last_player := some 'O', moves := some (9, 9) }

/- ------------------------------------------------------------------ -/
/- Helper lemmas. -/

/- Reading off the conjuncts of a successful valid_move check. -/
lemma valid_move_cell {b : Board} {i j : Int} (hv : valid_move b i j = true) :
    b i.toNat j.toNat = '.' := by
  unfold valid_move at hv
  simp only [Bool.and_eq_true, decide_eq_true_eq, beq_iff_eq] at hv
  exact hv.2

/- An accepted move only writes the one cell that valid_move certified to
be empty, so every non-empty cell keeps its mark. -/
lemma setCell_preserves {b : Board} {i j : Int} {m : Char} {x y : Nat}
    (hv : valid_move b i j = true) (hne : b x y ≠ '.') :
    setCell b i j m x y = b x y := by
  unfold setCell writeCell
  split
  · rename_i hxy
    exact absurd (hxy.1 ▸ hxy.2 ▸ valid_move_cell hv) hne
  · rfl

/- ------------------------------------------------------------------ -/
/- C2.  Coordinator policy on illegal and legal moves (amended: a legal
move that ends the game leaves the counter untouched, which the
counterexample below exhibits). -/

/- C2 (amended): an illegal target bumps the counter by exactly one and
routes back to the node of the same player; when the bumped counter reaches
3 the session ends with the invalid-move-limit status; a legal move that
keeps the game in progress resets the counter to 0. -/
theorem coordinator_invalid_move_policy (p1 : String) (s : GameState)
    (symbol : Char) (i j : Int) (hlast : s.last_player = some symbol)
    (hmv : s.moves = some (i, j)) (hsym : symbol = 'O' ∨ symbol = 'X') :
    (valid_move s.board i j = false →
      (s.invalid_move_count + 1 < 3 →
        coordinator_step p1 s =
          some ({ s with invalid_move_count := s.invalid_move_count + 1 },
                nodeOf symbol) ∧
        playsMark (nodeOf symbol) = some symbol) ∧
      (3 ≤ s.invalid_move_count + 1 →
        coordinator_step p1 s =
          some ({ s with game_status := some (invalid_limit_msg i j symbol) },
                Node.endNode))) ∧
    (valid_move s.board i j = true →
      check_winner (setCell s.board i j symbol) = WinResult.ongoing →
      coordinator_step p1 s =
        some ({ s with board := setCell s.board i j symbol,
                       invalid_move_count := 0 },
              if symbol = 'O' then Node.player_two_node else Node.player_one_node)) := by
  refine ⟨fun hinv => ⟨fun hlt => ?_, fun hge => ?_⟩, fun hv hw => ?_⟩
  · unfold coordinator_step
    rw [hlast, hmv]
    simp only [hinv, Bool.false_eq_true, if_false]
    rw [if_neg (by omega)]
    refine ⟨rfl, ?_⟩
    rcases hsym with rfl | rfl <;> rfl
  · unfold coordinator_step
    rw [hlast, hmv]
    simp only [hinv, Bool.false_eq_true, if_false]
    rw [if_pos hge]
  · unfold coordinator_step
    rw [hlast, hmv]
    simp only [hv, if_true]
    rw [hw]

/- C2 witness: the automated player replays the occupied centre with a
fresh counter; the step bumps the counter to 1 and asks player one again. -/
theorem coordinator_invalid_move_policy_witness :
    coordinator_step "gemini" retryState =
      some ({ retryState with invalid_move_count := 1 }, nodeOf 'O') ∧
    playsMark (nodeOf 'O') = some 'O' :=
  ((coordinator_invalid_move_policy "gemini" retryState 'O' 1 1 rfl rfl
      (Or.inl rfl)).1 (by decide)).1 (by decide)

/- C2 counterexample: a legal move that wins the game does not reset the
invalid-move counter, refuting the claim that every legal move resets it to
0 — the winning step here leaves the stale counter at 2. -/
theorem legal_terminal_move_keeps_counter :
    valid_move preWinState.board 0 2 = true ∧
    stepCounter (coordinator_step "gemini" preWinState) = some 2 := by
  constructor
  · decide
  · rfl

/- ------------------------------------------------------------------ -/
/- C6.  Illegal attempts never mutate the board. -/

/- C6: the rejecting branch of the coordinator leaves every cell of the
board unchanged, and three consecutive attempts at the same illegal target
walk the counter 0, 1, 2 and then end the session aborted, with the board
identical throughout. -/
theorem invalid_attempts_leave_board_unchanged (p1 : String) (s : GameState)
    (symbol : Char) (i j : Int) (hlast : s.last_player = some symbol)
    (hmv : s.moves = some (i, j)) (hinv : valid_move s.board i j = false) :
    (∀ s' n, coordinator_step p1 s = some (s', n) → s'.board = s.board) ∧
    (s.invalid_move_count = 0 →
      coordinator_step p1 s =
        some ({ s with invalid_move_count := 1 }, nodeOf symbol) ∧
      coordinator_step p1 { s with invalid_move_count := 1 } =
        some ({ s with invalid_move_count := 2 }, nodeOf symbol) ∧
      coordinator_step p1 { s with invalid_move_count := 2 } =
        some ({ s with invalid_move_count := 2,
                       game_status := some (invalid_limit_msg i j symbol) },
              Node.endNode)) := by
  constructor
  · intro s' n h
    unfold coordinator_step at h
    rw [hlast, hmv] at h
    simp only [hinv, Bool.false_eq_true, if_false] at h
    split at h <;>
      · simp only [Option.some.injEq, Prod.mk.injEq] at h
        rw [← h.1]
  · intro h0
    refine ⟨?_, ?_, ?_⟩
    · unfold coordinator_step
      rw [hlast, hmv]
      simp only [hinv, Bool.false_eq_true, if_false]
      rw [if_neg (by omega), h0]
      rfl
    · unfold coordinator_step
      rw [show ({ s with invalid_move_count := 1 } : GameState).last_player =
            some symbol from hlast,
          show ({ s with invalid_move_count := 1 } : GameState).moves =
            some (i, j) from hmv]
      simp only [hinv, Bool.false_eq_true, if_false]
      rw [if_neg (by omega)]
      rfl
    · unfold coordinator_step
      rw [show ({ s with invalid_move_count := 2 } : GameState).last_player =
            some symbol from hlast,
          show ({ s with invalid_move_count := 2 } : GameState).moves =
            some (i, j) from hmv]
      simp only [hinv, Bool.false_eq_true, if_false]
      rw [if_pos (by omega)]

/- C6 witness: the human replays the occupied centre three times; the
counter walks to the abort with the board untouched. -/
theorem invalid_attempts_leave_board_unchanged_witness :
    coordinator_step "gemini" occupiedCenterState =
      some ({ occupiedCenterState with invalid_move_count := 1 }, nodeOf 'X') ∧
    coordinator_step "gemini" { occupiedCenterState with invalid_move_count := 1 } =
      some ({ occupiedCenterState with invalid_move_count := 2 }, nodeOf 'X') ∧
    coordinator_step "gemini" { occupiedCenterState with invalid_move_count := 2 } =
      some ({ occupiedCenterState with
                invalid_move_count := 2,
                game_status := some (invalid_limit_msg 1 1 'X') },
            Node.endNode) :=
  (invalid_attempts_leave_board_unchanged "gemini" occupiedCenterState 'X' 1 1
      rfl rfl (by decide)).2 rfl

/- ------------------------------------------------------------------ -/
/- C9.  Writes only hit empty cells: marks never revert. -/

/- C9: both board-writing operations — the coordinator applying a validated
move and the UI recording a human click — leave every currently non-empty
cell exactly as it is, so a cell that left Empty never changes again within
the session. -/
theorem cells_never_revert :
    (∀ (p1 : String) (s s' : GameState) (n : Node) (x y : Nat),
      coordinator_step p1 s = some (s', n) → s.board x y ≠ '.' →
      s'.board x y = s.board x y) ∧
    (∀ (ui : UIState) (row col : Int) (x y : Nat),
      ui.board x y ≠ '.' →
      (handleBoardClick ui row col).board x y = ui.board x y) := by
  constructor
  · intro p1 s s' n x y h hne
    unfold coordinator_step at h
    cases hl : s.last_player with
    | none =>
      rw [hl] at h
      simp only [Option.some.injEq, Prod.mk.injEq] at h
      rw [← h.1]
    | some symbol =>
      rw [hl] at h
      cases hm : s.moves with
      | none => rw [hm] at h; exact absurd h (by simp)
      | some pr =>
        obtain ⟨i, j⟩ := pr
        rw [hm] at h
        by_cases hv : valid_move s.board i j = true
        · simp only [hv, if_true] at h
          split at h <;>
            · simp only [Option.some.injEq, Prod.mk.injEq] at h
              rw [← h.1]
              exact setCell_preserves hv hne
        · rw [Bool.not_eq_true] at hv
          simp only [hv, Bool.false_eq_true, if_false] at h
          split at h <;>
            · simp only [Option.some.injEq, Prod.mk.injEq] at h
              rw [← h.1]
  · intro ui row col x y hne
    unfold handleBoardClick
    split
    · split
      · rename_i hck
        unfold clickCheck at hck
        simp only [Bool.and_eq_true, beq_iff_eq] at hck
        unfold clickRecord writeCell
        simp only
        split
        · rename_i hxy
          exact absurd (hxy.1 ▸ hxy.2 ▸ hck.1) hne
        · rfl
      · rfl
    · rfl

/- C9 witness: a rejected replay of the occupied centre and a rejected
click on the occupied corner both leave those cells as they were. -/
theorem cells_never_revert_witness :
    ({ occupiedCenterState with invalid_move_count := 1 } : GameState).board 1 1 =
      occupiedCenterState.board 1 1 ∧
    (handleBoardClick occupiedUI 0 0).board 0 0 = occupiedUI.board 0 0 :=
  ⟨cells_never_revert.1 "gemini" occupiedCenterState
      { occupiedCenterState with invalid_move_count := 1 } Node.player_two_node
      1 1 rfl (by decide),
   cells_never_revert.2 occupiedUI 0 0 0 0 (by decide)⟩

/- ------------------------------------------------------------------ -/
/- C7.  Rejected submits are silent no-ops. -/

/- C7: a board click while the gate is closed or on a non-empty cell
changes nothing: the state is returned unchanged, no move is recorded and
the move_ready event is not set (and, the handler being a total function,
no error is raised). -/
theorem rejected_submit_is_silent_noop (ui : UIState) (row col : Int)
    (h : ui.human_turn = false ∨ ui.board row.toNat col.toNat ≠ '.') :
    handleBoardClick ui row col = ui ∧
    (handleBoardClick ui row col).human_move = ui.human_move ∧
    (handleBoardClick ui row col).move_ready = ui.move_ready := by
  have hmain : handleBoardClick ui row col = ui := by
    unfold handleBoardClick clickCheck
    split
    · have hb : ((ui.board row.toNat col.toNat == '.') && ui.human_turn) = false := by
        rcases h with h | h
        · rw [h, Bool.and_false]
        · rw [beq_eq_false_iff_ne.mpr h, Bool.false_and]
      simp only [hb, Bool.false_eq_true, if_false]
    · rfl
  exact ⟨hmain, by rw [hmain], by rw [hmain]⟩

/- C7 witness: a click on the occupied corner while the gate is open is a
no-op. -/
theorem rejected_submit_is_silent_noop_witness :
    handleBoardClick occupiedUI 0 0 = occupiedUI ∧
    (handleBoardClick occupiedUI 0 0).human_move = occupiedUI.human_move ∧
    (handleBoardClick occupiedUI 0 0).move_ready = occupiedUI.move_ready :=
  rejected_submit_is_silent_noop occupiedUI 0 0 (Or.inr (by decide))

/- ------------------------------------------------------------------ -/
/- C8.  Restart fully resets the session. -/

/- C8: reset_game returns the UI to an all-empty board with the game-over
flag and status cleared, the gate closed, no stale pending move, the
restart event cleared and model selection re-enabled; and the fresh State
the runner builds for the next game starts with counter 0, no status, an
empty board and no turn owner. -/
theorem restart_fully_resets (ui : UIState) :
    (reset_game ui).board = emptyBoard ∧
    (reset_game ui).game_over = false ∧
    (reset_game ui).game_status = "" ∧
    (reset_game ui).human_turn = false ∧
    (reset_game ui).human_move = none ∧
    (reset_game ui).restart_event = false ∧
    (reset_game ui).model_selection_enabled = true ∧
    initState.board = emptyBoard ∧
    initState.game_status = none ∧
    initState.invalid_move_count = 0 ∧
    initState.last_player = none ∧
    initState.moves = none :=
  ⟨rfl, rfl, rfl, rfl, rfl, rfl, rfl, rfl, rfl, rfl, rfl, rfl⟩

/- ------------------------------------------------------------------ -/
/- C5.  Shutdown does not unblock a blocked awaitMove (code bug). -/

/- C5 (code bug): the shutdown path — the QUIT handler plus the finally
block of the main module — sets running to false and raises the shutdown
and restart events, but never sets move_ready, the only condition
wait_for_human_move waits on; a logic thread blocked in the gate therefore
stays blocked through shutdown. -/
theorem shutdown_does_not_unblock_await :
    (∀ ui : UIState,
      await_unblocked (main_finally_signal (on_quit ui)) = await_unblocked ui) ∧
    await_unblocked blockedUI = false ∧
    (main_finally_signal (on_quit blockedUI)).running = false ∧
    (main_finally_signal (on_quit blockedUI)).shutdown_event = true ∧
    (main_finally_signal (on_quit blockedUI)).restart_event = true ∧
    await_unblocked (main_finally_signal (on_quit blockedUI)) = false :=
  ⟨fun _ => rfl, rfl, rfl, rfl, rfl, rfl⟩

/- ------------------------------------------------------------------ -/
/- C4.  The submit check and record are two lock sections, not one
critical section (code bug). -/

/- C4 (code bug): because the emptiness-and-turn check and the
record-and-close run under two separate acquisitions of the lock, the
interleaving check-check-record-record is lock-legal and accepts both of
two near-simultaneous clicks in the same turn, which a single critical
section would exclude; the sequential processing the single UI thread
actually performs accepts only the first click. -/
theorem split_lock_sections_double_accept :
    (splitLockDoubleClick openGateUI 0 0 0 1).2.1 = true ∧
    (splitLockDoubleClick openGateUI 0 0 0 1).2.2 = true ∧
    (splitLockDoubleClick openGateUI 0 0 0 1).1.board 0 0 = 'X' ∧
    (splitLockDoubleClick openGateUI 0 0 0 1).1.board 0 1 = 'X' ∧
    (splitLockDoubleClick openGateUI 0 0 0 1).1.human_move = some (0, 1) ∧
    (handleBoardClick (handleBoardClick openGateUI 0 0) 0 1).board 0 1 = '.' ∧
    (handleBoardClick (handleBoardClick openGateUI 0 0) 0 1).human_move =
      some (0, 0) := by
  decide

/- ------------------------------------------------------------------ -/
/- C3.  Unparsable adapter reply: fatal abort, not surfaced to the UI
(amended: no terminal status string reaches the UI boundary). -/

/- C3 (amended): an unparsable adapter reply raises from player_one_node
without producing any state update, so it is never counted by the
coordinator; the session runner catches it, stops the game loop, clears
continue_running and raises the shutdown event, while the UI state — its
running flag, its game-over flag, its status string and its board — is left
exactly as it was, so the UI loop keeps running but no Aborted status
string is published to it. -/
theorem unparsable_adapter_reply_aborts_session (resp : String) (tok : Nat)
    (s : GameState) (sys : SystemState) (h : parse_coord resp = none) :
    player_one_step resp tok s = Except.error ("unparsable move: " ++ resp) ∧
    (run_with_adapter_reply resp tok s sys).game_thread_alive = false ∧
    (run_with_adapter_reply resp tok s sys).continue_running = false ∧
    (run_with_adapter_reply resp tok s sys).ui.shutdown_event = true ∧
    (run_with_adapter_reply resp tok s sys).ui.running = sys.ui.running ∧
    (run_with_adapter_reply resp tok s sys).ui.game_over = sys.ui.game_over ∧
    (run_with_adapter_reply resp tok s sys).ui.game_status = sys.ui.game_status ∧
    (run_with_adapter_reply resp tok s sys).ui.board = sys.ui.board := by
  have hstep : player_one_step resp tok s =
      Except.error ("unparsable move: " ++ resp) := by
    unfold player_one_step
    rw [h]
  refine ⟨hstep, ?_, ?_, ?_, ?_, ?_, ?_, ?_⟩ <;>
    · unfold run_with_adapter_reply
      rw [hstep]
      rfl

/- C3 witness: the reply "pass" contains no coordinate pair and raises. -/
theorem unparsable_adapter_reply_aborts_session_witness :
    player_one_step "pass" 0 initState =
      Except.error ("unparsable move: " ++ "pass") :=
  (unparsable_adapter_reply_aborts_session "pass" 0 initState {} (by decide)).1

/- C3 counterexample: after the abort on the unparsable reply the UI has no
terminal status — the game-over flag is still false and the status string
still empty — refuting the claim that the Aborted status is reported to
the UI boundary as a terminal status string. -/
theorem unparsable_abort_not_reported_to_ui :
    parse_coord "I resign" = none ∧
    (run_with_adapter_reply "I resign" 0 initState {}).game_thread_alive = false ∧
    (run_with_adapter_reply "I resign" 0 initState {}).ui.running = true ∧
    (run_with_adapter_reply "I resign" 0 initState {}).ui.game_over = false ∧
    (run_with_adapter_reply "I resign" 0 initState {}).ui.game_status = "" := by
  refine ⟨by decide, rfl, rfl, rfl, rfl⟩

/- ------------------------------------------------------------------ -/
/- C1.  check_winner characterization. -/

/- The draw condition of check_winner is exactly that no cell of the 3x3
grid is empty. -/
lemma boardFull_iff (b : Board) :
    boardFull b = true ↔ ∀ x < 3, ∀ y < 3, b x y ≠ '.' := by
  unfold boardFull
  simp [List.all_eq_true, List.mem_range]

/- C1: check_winner returns Win exactly when a line is complete, the
returned mark being the mark of the first complete line in the fixed order
rows 0-2, columns 0-2, main diagonal, anti-diagonal; it returns Draw
exactly when no line is complete and no cell of the grid is empty; and it
returns None exactly when no line is complete and some cell is empty. -/
theorem check_winner_characterization (b : Board) :
    ((firstCompleteLine b).isSome ↔ ∃ ln ∈ specLines, lineComplete b ln = true) ∧
    (∀ m, check_winner b = WinResult.win m ↔
      ∃ ln, firstCompleteLine b = some ln ∧ lineMark b ln = m) ∧
    (check_winner b = WinResult.draw ↔
      firstCompleteLine b = none ∧ ∀ x < 3, ∀ y < 3, b x y ≠ '.') ∧
    (check_winner b = WinResult.ongoing ↔
      firstCompleteLine b = none ∧ ¬ ∀ x < 3, ∀ y < 3, b x y ≠ '.') := by
  have hfull := boardFull_iff b
  obtain h1 | h1 := Bool.eq_false_or_eq_true (lineHit b 0 0 0 1 0 2)
  on_goal 1 =>
    simp [check_winner, firstCompleteLine, specLines, lineComplete,
      List.find?, lineMark, h1]
  obtain h2 | h2 := Bool.eq_false_or_eq_true (lineHit b 1 0 1 1 1 2)
  on_goal 1 =>
    simp [check_winner, firstCompleteLine, specLines, lineComplete,
      List.find?, lineMark, h1, h2]
  obtain h3 | h3 := Bool.eq_false_or_eq_true (lineHit b 2 0 2 1 2 2)
  on_goal 1 =>
    simp [check_winner, firstCompleteLine, specLines, lineComplete,
      List.find?, lineMark, h1, h2, h3]
  obtain h4 | h4 := Bool.eq_false_or_eq_true (lineHit b 0 0 1 0 2 0)
  on_goal 1 =>
    simp [check_winner, firstCompleteLine, specLines, lineComplete,
      List.find?, lineMark, h1, h2, h3, h4]
  obtain h5 | h5 := Bool.eq_false_or_eq_true (lineHit b 0 1 1 1 2 1)
  on_goal 1 =>
    simp [check_winner, firstCompleteLine, specLines, lineComplete,
      List.find?, lineMark, h1, h2, h3, h4, h5]
  obtain h6 | h6 := Bool.eq_false_or_eq_true (lineHit b 0 2 1 2 2 2)
  on_goal 1 =>
    simp [check_winner, firstCompleteLine, specLines, lineComplete,
      List.find?, lineMark, h1, h2, h3, h4, h5, h6]
  obtain h7 | h7 := Bool.eq_false_or_eq_true (lineHit b 0 0 1 1 2 2)
  on_goal 1 =>
    simp [check_winner, firstCompleteLine, specLines, lineComplete,
      List.find?, lineMark, h1, h2, h3, h4, h5, h6, h7]
  obtain h8 | h8 := Bool.eq_false_or_eq_true (lineHit b 0 2 1 1 2 0)
  on_goal 1 =>
    simp [check_winner, firstCompleteLine, specLines, lineComplete,
      List.find?, lineMark, h1, h2, h3, h4, h5, h6, h7, h8]
  obtain h9 | h9 := Bool.eq_false_or_eq_true (boardFull b)
  · have h9p : ∀ x < 3, ∀ y < 3, b x y ≠ '.' := hfull.mp h9
    simp only [check_winner, firstCompleteLine, specLines, lineComplete,
      List.find?, lineMark, h1, h2, h3, h4, h5, h6, h7, h8, h9]
    simp [h9p]
    exact ⟨⟨h1, h2, h3, h4, h5, h6, h7, h8⟩, h9p⟩
  · have h9n : ¬ ∀ x < 3, ∀ y < 3, b x y ≠ '.' := by
      rw [← hfull, h9]
      simp
    have h9e := h9n
    push_neg at h9e
    simp [check_winner, firstCompleteLine, specLines, lineComplete,
      List.find?, lineMark, h1, h2, h3, h4, h5, h6, h7, h8, h9, h9n, h9e]

/- ------------------------------------------------------------------ -/
/- C10.  parse_coord characterization: helper lemmas about the scanner. -/

lemma takeWhile_sat_append (p : Char → Bool) (l1 l2 : List Char)
    (h1 : allSat p l1) (h2 : headNotSat p l2) :
    (l1 ++ l2).takeWhile p = l1 ∧ (l1 ++ l2).dropWhile p = l2 := by
  induction l1 with
  | nil =>
    cases l2 with
    | nil => exact ⟨rfl, rfl⟩
    | cons c t =>
      unfold headNotSat at h2
      simp [List.takeWhile_cons, List.dropWhile_cons, h2]
  | cons c t ih =>
    have hc : p c = true := h1 c (by simp)
    have ht : allSat p t := fun x hx => h1 x (by simp [hx])
    have hrec := ih ht
    simp [List.cons_append, List.takeWhile_cons, List.dropWhile_cons, hc,
      hrec.1, hrec.2]

lemma dropWhile_headNotSat (p : Char → Bool) (l : List Char) :
    headNotSat p (l.dropWhile p) := by
  induction l with
  | nil => trivial
  | cons c t ih =>
    by_cases hc : p c = true
    · simpa [List.dropWhile_cons, hc] using ih
    · rw [Bool.not_eq_true] at hc
      rw [List.dropWhile_cons, if_neg (by simp [hc])]
      exact hc

lemma takeWhile_allSat (p : Char → Bool) (l : List Char) :
    allSat p (l.takeWhile p) :=
  fun _ hc => List.mem_takeWhile_imp hc

lemma parseIntAt_sound {cs rest : List Char} {v : Int}
    (h : parseIntAt cs = some (v, rest)) :
    ∃ m, cs = m ++ rest ∧ IntToken m v ∧ headNotSat isPyDigit rest := by
  cases cs with
  | nil => simp [parseIntAt] at h
  | cons c t =>
    simp only [parseIntAt] at h
    by_cases hc : c = '-'
    · rw [if_pos hc] at h
      by_cases he : (t.takeWhile isPyDigit).isEmpty = true
      · rw [if_pos he] at h
        cases h
      · rw [if_neg he] at h
        simp only [Option.some.injEq, Prod.mk.injEq] at h
        obtain ⟨hv, hr⟩ := h
        refine ⟨'-' :: t.takeWhile isPyDigit, ?_, ?_, ?_⟩
        · rw [hc, ← hr, List.cons_append, List.takeWhile_append_dropWhile]
        · exact ⟨t.takeWhile isPyDigit,
            fun hnil => he (by rw [hnil]; rfl),
            takeWhile_allSat _ _, Or.inr ⟨rfl, hv.symm⟩⟩
        · rw [← hr]
          exact dropWhile_headNotSat _ _
    · rw [if_neg hc] at h
      by_cases he : ((c :: t).takeWhile isPyDigit).isEmpty = true
      · rw [if_pos he] at h
        cases h
      · rw [if_neg he] at h
        simp only [Option.some.injEq, Prod.mk.injEq] at h
        obtain ⟨hv, hr⟩ := h
        refine ⟨(c :: t).takeWhile isPyDigit, ?_, ?_, ?_⟩
        · rw [← hr, List.takeWhile_append_dropWhile]
        · exact ⟨(c :: t).takeWhile isPyDigit,
            fun hnil => he (by rw [hnil]; rfl),
            takeWhile_allSat _ _, Or.inl ⟨rfl, hv.symm⟩⟩
        · rw [← hr]
          exact dropWhile_headNotSat _ _

lemma parseIntAt_complete {m rest : List Char} {v : Int}
    (hm : IntToken m v) (hrest : headNotSat isPyDigit rest) :
    parseIntAt (m ++ rest) = some (v, rest) := by
  obtain ⟨ds, hne, hds, hcase⟩ := hm
  have htdw := takeWhile_sat_append isPyDigit ds rest hds hrest
  have hie : ds.isEmpty = false := by
    cases ds with
    | nil => exact absurd rfl hne
    | cons a b => rfl
  rcases hcase with ⟨hm1, hv1⟩ | ⟨hm1, hv1⟩
  · rw [hm1, hv1]
    cases ds with
    | nil => exact absurd rfl hne
    | cons d dt =>
      have hd : isPyDigit d = true := hds d (by simp)
      have hdm : d ≠ '-' := by
        intro e
        rw [e] at hd
        exact absurd hd (by decide)
      have h1 : (d :: (dt ++ rest)).takeWhile isPyDigit = d :: dt := by
        have := htdw.1
        rwa [List.cons_append] at this
      have h2 : (d :: (dt ++ rest)).dropWhile isPyDigit = rest := by
        have := htdw.2
        rwa [List.cons_append] at this
      rw [List.cons_append]
      simp only [parseIntAt]
      rw [if_neg hdm, h1, h2]
      have h3 : (d :: dt).isEmpty = false := rfl
      rw [h3]
      simp
  · rw [hm1, hv1, List.cons_append]
    simp only [parseIntAt]
    rw [if_pos trivial, htdw.1, htdw.2, hie]
    simp

/- No whitespace codepoint lies in a decimal-digit run. -/
lemma pySpace_digit_disjoint :
    pySpaceCodes.all (fun n => !(natIsPyDigit n)) = true := by decide

lemma isPySpace_not_digit {c : Char} (h : isPySpace c = true) :
    isPyDigit c = false := by
  unfold isPySpace natIsPySpace at h
  have hm : c.toNat ∈ pySpaceCodes := by simpa using h
  have hall := List.all_eq_true.mp pySpace_digit_disjoint _ hm
  unfold isPyDigit
  simpa using hall

/- The head of an integer token is a minus sign or a digit: never a python
whitespace char and never a comma. -/
lemma intToken_head {m : List Char} {v : Int} (h : IntToken m v) :
    ∃ e t, m = e :: t ∧ isPySpace e = false ∧ e ≠ ',' := by
  obtain ⟨ds, hne, hds, hcase⟩ := h
  have hdig : ∀ d, isPyDigit d = true → isPySpace d = false ∧ d ≠ ',' := by
    intro d hd
    constructor
    · by_cases hs : isPySpace d = true
      · rw [isPySpace_not_digit hs] at hd
        cases hd
      · rwa [Bool.not_eq_true] at hs
    · intro e
      rw [e] at hd
      exact absurd hd (by decide)
  rcases hcase with ⟨hm1, -⟩ | ⟨hm1, -⟩
  · rw [hm1]
    cases ds with
    | nil => exact absurd rfl hne
    | cons d dt =>
      have hh := hdig d (hds d (by simp))
      exact ⟨d, dt, rfl, hh.1, hh.2⟩
  · rw [hm1]
    exact ⟨'-', ds, rfl, by decide, by decide⟩

lemma sepSecond_eq_nil {cs : List Char} (hd : cs.dropWhile isPySpace = []) :
    sepSecond cs = none := by
  unfold sepSecond
  rw [hd]

lemma sepSecond_eq_cons {cs : List Char} {c : Char} {t2 : List Char}
    (hd : cs.dropWhile isPySpace = c :: t2) :
    sepSecond cs =
      if c = ',' then (parseIntAt (t2.dropWhile isPySpace)).map Prod.fst
      else if (cs.takeWhile isPySpace).contains ' ' = true then
        (parseIntAt (c :: t2)).map Prod.fst
      else none := by
  unfold sepSecond
  rw [hd]

lemma sepSecond_sound {cs : List Char} {j : Int} (h : sepSecond cs = some j) :
    ∃ w1 c w2 m2 rest, cs = w1 ++ c :: (w2 ++ (m2 ++ rest)) ∧
      SepToken w1 c w2 ∧ IntToken m2 j ∧ headNotSat isPyDigit rest := by
  cases hd : cs.dropWhile isPySpace with
  | nil =>
    rw [sepSecond_eq_nil hd] at h
    cases h
  | cons c t2 =>
    rw [sepSecond_eq_cons hd] at h
    have hcs : cs = cs.takeWhile isPySpace ++ (c :: t2) := by
      rw [← hd, List.takeWhile_append_dropWhile]
    by_cases hc : c = ','
    · rw [if_pos hc] at h
      cases hp : parseIntAt (t2.dropWhile isPySpace) with
      | none =>
        rw [hp] at h
        cases h
      | some pr =>
        obtain ⟨v, rest⟩ := pr
        rw [hp] at h
        simp only [Option.map_some', Option.some.injEq] at h
        obtain ⟨m2, hm2eq, hm2tok, hm2rest⟩ := parseIntAt_sound hp
        refine ⟨cs.takeWhile isPySpace, c, t2.takeWhile isPySpace, m2, rest,
          ?_, ?_, h ▸ hm2tok, hm2rest⟩
        · conv_lhs => rw [hcs]
          have ht2 : t2 = t2.takeWhile isPySpace ++ (m2 ++ rest) := by
            conv_lhs => rw [← List.takeWhile_append_dropWhile isPySpace t2]
            rw [hm2eq]
          conv_lhs => rw [ht2]
        · exact ⟨takeWhile_allSat _ _, Or.inl hc, takeWhile_allSat _ _⟩
    · rw [if_neg hc] at h
      by_cases hsp : (cs.takeWhile isPySpace).contains ' ' = true
      · rw [if_pos hsp] at h
        cases hp : parseIntAt (c :: t2) with
        | none =>
          rw [hp] at h
          cases h
        | some pr =>
          obtain ⟨v, rest⟩ := pr
          rw [hp] at h
          simp only [Option.map_some', Option.some.injEq] at h
          obtain ⟨m2, hm2eq, hm2tok, hm2rest⟩ := parseIntAt_sound hp
          have hmem : ' ' ∈ cs.takeWhile isPySpace := by simpa using hsp
          obtain ⟨a1, a2, hsplit⟩ := List.append_of_mem hmem
          have hall := takeWhile_allSat isPySpace cs
          rw [hsplit] at hall
          refine ⟨a1, ' ', a2, m2, rest, ?_, ?_, h ▸ hm2tok, hm2rest⟩
          · rw [hcs, hsplit, hm2eq]
            simp [List.append_assoc]
          · exact ⟨fun x hx => hall x (by simp [hx]), Or.inr rfl,
              fun x hx => hall x (by simp [hx])⟩
      · rw [if_neg hsp] at h
        cases h

lemma sepSecond_complete {w1 w2 m2 rest : List Char} {c : Char} {j : Int}
    (hsep : SepToken w1 c w2) (hm2 : IntToken m2 j)
    (hrest : headNotSat isPyDigit rest) :
    sepSecond (w1 ++ c :: (w2 ++ (m2 ++ rest))) = some j := by
  obtain ⟨hw1, hc, hw2⟩ := hsep
  obtain ⟨e, t, hm2e, hesp, hecomma⟩ := intToken_head hm2
  have hparse : parseIntAt (m2 ++ rest) = some (j, rest) :=
    parseIntAt_complete hm2 hrest
  have hm2headNS : headNotSat isPySpace (m2 ++ rest) := by
    rw [hm2e, List.cons_append]
    exact hesp
  rcases hc with rfl | rfl
  · have hns : headNotSat isPySpace (',' :: (w2 ++ (m2 ++ rest))) :=
      (by decide : isPySpace ',' = false)
    have htdw := takeWhile_sat_append isPySpace w1
      (',' :: (w2 ++ (m2 ++ rest))) hw1 hns
    have htdw2 := takeWhile_sat_append isPySpace w2 (m2 ++ rest) hw2 hm2headNS
    rw [sepSecond_eq_cons htdw.2, if_pos rfl, htdw2.2, hparse]
    rfl
  · have hall : allSat isPySpace (w1 ++ ' ' :: w2) := by
      intro x hx
      rcases List.mem_append.mp hx with hx1 | hx2
      · exact hw1 x hx1
      · rcases List.mem_cons.mp hx2 with rfl | hx3
        · decide
        · exact hw2 x hx3
    have htdw := takeWhile_sat_append isPySpace (w1 ++ ' ' :: w2)
      (m2 ++ rest) hall hm2headNS
    have hshape : w1 ++ ' ' :: (w2 ++ (m2 ++ rest)) =
        (w1 ++ ' ' :: w2) ++ (m2 ++ rest) := by
      simp [List.append_assoc]
    rw [hshape]
    have hd2 : ((w1 ++ ' ' :: w2) ++ (m2 ++ rest)).dropWhile isPySpace =
        e :: (t ++ rest) := by
      rw [htdw.2, hm2e, List.cons_append]
    rw [sepSecond_eq_cons hd2, if_neg hecomma]
    have hcontains : (((w1 ++ ' ' :: w2) ++ (m2 ++ rest)).takeWhile
        isPySpace).contains ' ' = true := by
      rw [htdw.1]
      simp
    rw [if_pos hcontains]
    have hback : e :: (t ++ rest) = m2 ++ rest := by
      rw [hm2e, List.cons_append]
    rw [hback, hparse]
    rfl

lemma matchAt_eq_none_of_parse {cs : List Char}
    (hp : parseIntAt cs = none) : matchAt cs = none := by
  unfold matchAt
  rw [hp]

lemma matchAt_eq_of_parse {cs rest : List Char} {v : Int}
    (hp : parseIntAt cs = some (v, rest)) :
    matchAt cs =
      match sepSecond rest with
      | some j => some (v, j)
      | none => none := by
  unfold matchAt
  rw [hp]

lemma matchAt_sound {cs : List Char} {i j : Int}
    (h : matchAt cs = some (i, j)) : MatchDecomp cs i j := by
  cases hp : parseIntAt cs with
  | none =>
    rw [matchAt_eq_none_of_parse hp] at h
    cases h
  | some pr =>
    obtain ⟨v, rest1⟩ := pr
    rw [matchAt_eq_of_parse hp] at h
    cases hs : sepSecond rest1 with
    | none =>
      rw [hs] at h
      cases h
    | some j2 =>
      rw [hs] at h
      simp only [Option.some.injEq, Prod.mk.injEq] at h
      obtain ⟨hi, hj⟩ := h
      obtain ⟨m1, hm1eq, hm1tok, -⟩ := parseIntAt_sound hp
      obtain ⟨w1, c, w2, m2, rest, hreq, hsep, hm2, hrest⟩ := sepSecond_sound hs
      exact ⟨m1, w1, c, w2, m2, rest, by rw [hm1eq, hreq],
        hi ▸ hm1tok, hsep, hj ▸ hm2, hrest⟩

lemma matchAt_complete {cs : List Char} {i j : Int} (h : MatchDecomp cs i j) :
    matchAt cs = some (i, j) := by
  obtain ⟨m1, w1, c, w2, m2, rest, hceq, hm1, hsep, hm2, hrest⟩ := h
  have hns : headNotSat isPyDigit (w1 ++ c :: (w2 ++ (m2 ++ rest))) := by
    cases w1 with
    | nil =>
      rcases hsep.2.1 with rfl | rfl
      · exact (by decide : isPyDigit ',' = false)
      · exact (by decide : isPyDigit ' ' = false)
    | cons a w1t =>
      have ha := hsep.1 a (by simp)
      exact isPySpace_not_digit ha
  have h1 : parseIntAt cs = some (i, w1 ++ c :: (w2 ++ (m2 ++ rest))) := by
    rw [hceq]
    exact parseIntAt_complete hm1 hns
  rw [matchAt_eq_of_parse h1, sepSecond_complete hsep hm2 hrest]

lemma matchAt_nil : matchAt [] = none := rfl

lemma searchPairs_none_iff (cs : List Char) :
    searchPairs cs = none ↔ ∀ k, matchAt (cs.drop k) = none := by
  induction cs with
  | nil => simp [searchPairs, matchAt_nil]
  | cons c t ih =>
    constructor
    · intro h k
      cases hm : matchAt (c :: t) with
      | some p =>
        rw [searchPairs, hm] at h
        cases h
      | none =>
        simp only [searchPairs, hm] at h
        cases k with
        | zero => simpa using hm
        | succ k2 => simpa using (ih.mp h) k2
    · intro h
      have h0 : matchAt (c :: t) = none := by simpa using h 0
      simp only [searchPairs, h0]
      exact ih.mpr fun k => by simpa using h (k + 1)

lemma searchPairs_some {cs : List Char} {pr : Int × Int}
    (h : searchPairs cs = some pr) :
    ∃ k, matchAt (cs.drop k) = some pr ∧
      ∀ q, q < k → matchAt (cs.drop q) = none := by
  induction cs with
  | nil => simp [searchPairs] at h
  | cons c t ih =>
    cases hm : matchAt (c :: t) with
    | some p2 =>
      simp only [searchPairs, hm, Option.some.injEq] at h
      exact ⟨0, by simpa [h] using hm, fun q hq => absurd hq (by omega)⟩
    | none =>
      simp only [searchPairs, hm] at h
      obtain ⟨k, hk1, hk2⟩ := ih h
      refine ⟨k + 1, by simpa using hk1, fun q hq => ?_⟩
      cases q with
      | zero => simpa using hm
      | succ q2 => simpa using hk2 q2 (by omega)

lemma pairOcc_iff_drop {cs : List Char} {p : Nat} {i j : Int} :
    PairOcc cs p i j ↔ p ≤ cs.length ∧ MatchDecomp (cs.drop p) i j := by
  constructor
  · rintro ⟨pre, tail, rfl, rfl, hm⟩
    refine ⟨by simp, ?_⟩
    rw [List.drop_left]
    exact hm
  · rintro ⟨hp, hm⟩
    refine ⟨cs.take p, cs.drop p, (List.take_append_drop p cs).symm, ?_, hm⟩
    rw [List.length_take]
    omega

/- C10 (amended): parse_coord returns None exactly when no occurrence of
the pattern — a decimal integer, then optional whitespace, one comma or
space and optional whitespace, then a second decimal integer — exists
anywhere in the string; when it returns a pair, that pair is read off the
leftmost such occurrence (so out-of-range pairs such as 9,9 parse fine and
flow to the coordinator as a retryable illegal move, as the last conjuncts
evaluate). -/
theorem parse_coord_characterization (s : String) (i j : Int) :
    (parse_coord s = none ↔ ∀ p a b, ¬ PairOcc s.data p a b) ∧
    (parse_coord s = some (i, j) →
      ∃ p, PairOcc s.data p i j ∧ ∀ q a b, PairOcc s.data q a b → p ≤ q) ∧
    parse_coord "9,9" = some (9, 9) ∧
    valid_move emptyBoard 9 9 = false ∧
    coordinator_step "gemini" oorReplyState =
      some ({ oorReplyState with invalid_move_count := 1 },
        Node.player_one_node) := by
  refine ⟨?_, ?_, by decide, by decide, rfl⟩
  · unfold parse_coord
    constructor
    · intro hnone p a b hocc
      obtain ⟨-, hm⟩ := pairOcc_iff_drop.mp hocc
      have hk := (searchPairs_none_iff s.data).mp hnone p
      rw [matchAt_complete hm] at hk
      cases hk
    · intro hall
      cases hsome : searchPairs s.data with
      | none => rfl
      | some pr =>
        obtain ⟨a, b⟩ := pr
        obtain ⟨k, hk1, -⟩ := searchPairs_some hsome
        have hm := matchAt_sound hk1
        have hklen : k ≤ s.data.length := by
          by_contra hgt
          push_neg at hgt
          rw [List.drop_eq_nil_of_le (by omega), matchAt_nil] at hk1
          cases hk1
        exact absurd (pairOcc_iff_drop.mpr ⟨hklen, hm⟩) (hall k a b)
  · intro hsome
    unfold parse_coord at hsome
    obtain ⟨k, hk1, hk2⟩ := searchPairs_some hsome
    have hm := matchAt_sound hk1
    have hklen : k ≤ s.data.length := by
      by_contra hgt
      push_neg at hgt
      rw [List.drop_eq_nil_of_le (by omega), matchAt_nil] at hk1
      cases hk1
    refine ⟨k, pairOcc_iff_drop.mpr ⟨hklen, hm⟩, ?_⟩
    intro q a b hq
    by_contra hlt
    push_neg at hlt
    obtain ⟨-, hmq⟩ := pairOcc_iff_drop.mp hq
    have hnq := hk2 q hlt
    rw [matchAt_complete hmq] at hnq
    cases hnq

/- C10 witness: the out-of-range reply 9,9 parses, and its occurrence of
the pattern is the leftmost one. -/
theorem parse_coord_characterization_witness :
    ∃ p, PairOcc ("9,9").data p 9 9 ∧
      ∀ q a b, PairOcc ("9,9").data q a b → p ≤ q :=
  (parse_coord_characterization "9,9" 9 9).2.1 (by decide)

/- C10 counterexample: the string of 1, a tab and 2 contains two decimal
integers separated by whitespace, yet parse_coord returns None, because the
separator class of the regex only accepts a comma or a space char between
the optional whitespace runs. -/
theorem parse_coord_whitespace_pair_counterexample :
    WSPairOcc ("1\t2").data 1 2 ∧ parse_coord "1\t2" = none := by
  constructor
  · refine ⟨[], ['1'], ['\t'], ['2'], [], by decide, ?_, by decide, ?_, ?_,
      trivial⟩
    · exact ⟨['1'], by decide,
        (by decide : ∀ c ∈ (['1'] : List Char), isPyDigit c = true),
        Or.inl ⟨rfl, by decide⟩⟩
    · intro x hx
      simp only [List.mem_singleton] at hx
      rw [hx]
      left
      decide
    · exact ⟨['2'], by decide,
        (by decide : ∀ c ∈ (['2'] : List Char), isPyDigit c = true),
        Or.inl ⟨rfl, by decide⟩⟩
  · decide

end TicTacToe
